import Mathlib

/-!
Verification of the x402 payment-service paywall adapter

Shallow embedding of the two client-side adapter variants
(`src/unnamed/part_000` and
`src/src/x402_payment_service/static/paywall_adapter.js`):
the token-amount formatter, the wallet-provider call interceptor,
the network (fetch) call interceptor and the shared pending-artifact state.
-/

set_option maxRecDepth 10000

namespace X402

/-! ## Characters and digit strings (JS `BigInt.prototype.toString` / number parsing) -/

/-- Character for digit value `d`: characters 0-9 then lowercase a-f,
as produced by JavaScript `Number`/`BigInt` `toString` with radix up to 16. -/
def digitCh (d : Nat) : Char :=
  if d < 10 then Char.ofNat (48 + d) else Char.ofNat (87 + d)

/-- Numeric value of a digit character: 0-9, a-f and also uppercase A-F. -/
def hexCharVal (c : Char) : Nat :=
  if 65 ≤ c.toNat ∧ c.toNat ≤ 70 then c.toNat - 55
  else if 97 ≤ c.toNat then c.toNat - 87
  else c.toNat - 48

/-- Fuel-driven base-`b` digit expansion, most significant digit first.
`toCharsAux b fuel n` equals the digits of `n` in base `b` whenever `n < fuel`;
it mirrors the digit loop of `BigInt.prototype.toString(b)`. -/
def toCharsAux (b : Nat) : Nat → Nat → List Char
  | 0, _ => []
  | fuel + 1, n =>
    if n < b then [digitCh n]
    else toCharsAux b fuel (n / b) ++ [digitCh (n % b)]

/-- The base-`b` digit string of `n` (`BigInt(n).toString(b)`), as a character list. -/
def natToChars (b n : Nat) : List Char := toCharsAux b (n + 1) n

/-- Decimal string of a natural number (`String(n)` / `BigInt(n).toString()`). -/
def natDecStr (n : Nat) : String := String.mk (natToChars 10 n)

/-- Decimal string of an integer. -/
def intDecStr (n : Int) : String :=
  if n < 0 then "-" ++ String.mk (natToChars 10 n.natAbs)
  else String.mk (natToChars 10 n.natAbs)

/-- Lowercase hexadecimal string of an integer (`BigInt(n).toString(16)`). -/
def intHexStr (n : Int) : String :=
  if n < 0 then "-" ++ String.mk (natToChars 16 n.natAbs)
  else String.mk (natToChars 16 n.natAbs)

/-- Accumulating positional read-back of a digit-character list in base `b`. -/
def foldVal (b : Nat) (l : List Char) (acc : Nat) : Nat :=
  l.foldl (fun a c => b * a + hexCharVal c) acc

/-- Decimal value of a digit-character list (most significant first). -/
def parseChars (l : List Char) : Nat := foldVal 10 l 0

/-- JS `s.padStart(k, '0')` on a character list. -/
def padZeros (k : Nat) (l : List Char) : List Char :=
  List.replicate (k - l.length) '0' ++ l

/-- JS `s.replace(/0+$/, '')` on a character list: strip trailing zero characters. -/
def dropTrailingZeros (l : List Char) : List Char :=
  (l.reverse.dropWhile (fun c => c = '0')).reverse

/-! ## The token-amount formatter

Embedding of `formatAmount` (src/unnamed/part_000 lines 16-22 and
paywall_adapter.js lines 15-21, identical): exact integer division and
remainder via `BigInt`, remainder left-padded to `decimals` digits,
truncated to the first 4 digits, stripped of trailing zeros. -/

def formatAmountChars (atomic decimals : Nat) : List Char :=
  let d := 10 ^ decimals
  let i := natToChars 10 (atomic / d)
  let f := dropTrailingZeros (List.take 4 (padZeros decimals (natToChars 10 (atomic % d))))
  if f = [] then i else i ++ '.' :: f

def formatAmount (atomic decimals : Nat) : String :=
  String.mk (formatAmountChars atomic decimals)

/-- Read a formatter output back to atomic units: the part before the decimal
point scaled by `10 ^ d` plus the fractional digits scaled to atomic units. -/
def parseFormatted (s : String) (d : Nat) : Nat :=
  let l := s.data
  let ip := l.takeWhile (fun c => c ≠ '.')
  let fp := (l.dropWhile (fun c => c ≠ '.')).tail
  parseChars ip * 10 ^ d + parseChars fp * 10 ^ (d - fp.length)

/-! ### Digit-string lemmas -/

/-- A decimal digit character. -/
def isDig (c : Char) : Prop := 48 ≤ c.toNat ∧ c.toNat ≤ 57

instance (c : Char) : Decidable (isDig c) := by unfold isDig; infer_instance

/-- The fractional character list produced by the formatter for `a` and `d`. -/
def fracChars (a d : Nat) : List Char :=
  dropTrailingZeros (List.take 4 (padZeros d (natToChars 10 (a % 10 ^ d))))

/-! ## JavaScript primitive values and host-level string conversions

The adapter passes several payload fields through verbatim (they may be JSON
strings, numbers, booleans or null), applies JavaScript truthiness to them,
coerces them with `String(...)` and `BigInt(...)`, and serializes the objects
it builds with `JSON.stringify`. The model restricts these pass-through
positions to JSON primitive values. -/

inductive JsPrim where
  | str (s : String)
  | num (n : Int)
  | bool (b : Bool)
  | null
  deriving DecidableEq

/-- JavaScript truthiness of a primitive value. -/
def jsFalsy : JsPrim → Bool
  | .str s => s = ""
  | .num n => n = 0
  | .bool b => !b
  | .null => true

/-- JavaScript `a || b` where either operand may be `undefined` (`none`):
returns `a` when it is defined and truthy, otherwise `b` verbatim. -/
def jsOrPrim (a b : Option JsPrim) : Option JsPrim :=
  match a with
  | some p => if jsFalsy p then b else some p
  | none => b

/-- JavaScript `String(p)` on a primitive. -/
def jsPrimToString : JsPrim → String
  | .str s => s
  | .num n => intDecStr n
  | .bool b => if b then "true" else "false"
  | .null => "null"

/-- JSON string escaping for one character, as `JSON.stringify` performs it. -/
def escapeChar (c : Char) : List Char :=
  if c = '"' then ['\\', '"']
  else if c = '\\' then ['\\', '\\']
  else if c = Char.ofNat 8 then ['\\', 'b']
  else if c = Char.ofNat 9 then ['\\', 't']
  else if c = Char.ofNat 10 then ['\\', 'n']
  else if c = Char.ofNat 12 then ['\\', 'f']
  else if c = Char.ofNat 13 then ['\\', 'r']
  else if c.toNat < 32 then ['\\', 'u', '0', '0', digitCh (c.toNat / 16), digitCh (c.toNat % 16)]
  else [c]

/-- Model of `JSON.stringify` on a string value (quoted, escaped). -/
def jsonQuote (s : String) : String :=
  String.mk ('"' :: s.data.foldr (fun c r => escapeChar c ++ r) ['"'])

/-- Model of `JSON.stringify` on a primitive value. -/
def serializePrim : JsPrim → String
  | .str s => jsonQuote s
  | .num n => intDecStr n
  | .bool b => if b then "true" else "false"
  | .null => "null"

/-- A decimal digit character, as a Bool. -/
def isDecDigit (c : Char) : Bool := decide (48 ≤ c.toNat) && decide (c.toNat ≤ 57)

/-- A hexadecimal digit character (either case), as a Bool. -/
def isHexDigitCh (c : Char) : Bool :=
  isDecDigit c || (decide (97 ≤ c.toNat) && decide (c.toNat ≤ 102)) ||
    (decide (65 ≤ c.toNat) && decide (c.toNat ≤ 70))

/-- JS `BigInt(s)` on a string: empty string is 0, `0x`-prefixed strings parse as
hex, otherwise an optional sign followed by decimal digits; anything else
throws (`none`). -/
def bigIntOfStr (s : String) : Option Int :=
  let dec : List Char → Option Nat := fun l =>
    if l ≠ [] ∧ l.all isDecDigit then some (foldVal 10 l 0) else none
  let hex : List Char → Option Nat := fun l =>
    if l ≠ [] ∧ l.all isHexDigitCh then some (foldVal 16 l 0) else none
  match s.data with
  | [] => some 0
  | '0' :: 'x' :: rest => (hex rest).map Int.ofNat
  | '0' :: 'X' :: rest => (hex rest).map Int.ofNat
  | '-' :: rest => (dec rest).map (fun n => -(n : Int))
  | '+' :: rest => (dec rest).map Int.ofNat
  | l => (dec l).map Int.ofNat

/-- JS `BigInt(p)` on a primitive: numbers convert, booleans become 0/1,
`null`/`undefined` throw. -/
def bigIntOfPrim : JsPrim → Option Int
  | .str s => bigIntOfStr s
  | .num n => some n
  | .bool b => some (if b then 1 else 0)
  | .null => none

/-- JS `parseInt(s, 16)`: strip an optional `0x`/`0X` prefix, then read the
longest leading run of hex digits; `NaN` (`none`) when that run is empty. -/
def parseIntHex16 (s : String) : Option Nat :=
  let l := match s.data with
    | '0' :: 'x' :: rest => rest
    | '0' :: 'X' :: rest => rest
    | l => l
  match l.takeWhile isHexDigitCh with
  | [] => none
  | ds => some (foldVal 16 ds 0)

/-- JS `parseInt(p, 16)` after JavaScript string coercion of the value. -/
def parseIntOf16 (p : JsPrim) : Option Nat := parseIntHex16 (jsPrimToString p)

/-! ### base64 (`btoa`) -/

/-- The base64 alphabet character for a 6-bit value. -/
def b64Char (n : Nat) : Char :=
  if n < 26 then Char.ofNat (65 + n)
  else if n < 52 then Char.ofNat (97 + (n - 26))
  else if n < 62 then Char.ofNat (48 + (n - 52))
  else if n = 62 then '+' else '/'

/-- base64-encode a byte list, three bytes at a time, `=`-padded. -/
def b64Chunks : List Nat → List Char
  | [] => []
  | [a] => [b64Char (a / 4), b64Char (a % 4 * 16), '=', '=']
  | [a, b] => [b64Char (a / 4), b64Char (a % 4 * 16 + b / 16), b64Char (b % 16 * 4), '=']
  | a :: b :: c :: rest =>
    b64Char (a / 4) :: b64Char (a % 4 * 16 + b / 16) ::
      b64Char (b % 16 * 4 + c / 64) :: b64Char (c % 64) :: b64Chunks rest

/-- JS `btoa(s)`: base64 of the string's code units; throws (`none`) on any code
unit above 255. -/
def btoaOpt (s : String) : Option String :=
  if s.data.all (fun c => decide (c.toNat < 256)) then
    some (String.mk (b64Chunks (s.data.map Char.toNat)))
  else none

/-! ## Configuration and typed-data model -/

/-- The page-supplied token configuration (`window.__x402_token`). -/
structure TokenCfg where
  symbol : String
  address : String
  decimals : Nat
  name : String
  version : String
  native : Bool
  deriving DecidableEq

/-- The optional `extra` object of `window.x402.paymentRequirements[0]`. -/
structure ExtraCfg where
  name : Option String
  version : Option String
  deriving DecidableEq

/-- part_000 lines 10-14: `TOKEN.name = TOKEN.name || extra.name || TOKEN.symbol`. -/
def mergeName (t : TokenCfg) (e : ExtraCfg) : String :=
  if t.name ≠ "" then t.name
  else match e.name with
    | some s => if s ≠ "" then s else t.symbol
    | none => t.symbol

/-- part_000 line 13: `TOKEN.version = TOKEN.version || extra.version || '1'`. -/
def mergeVersion (t : TokenCfg) (e : ExtraCfg) : String :=
  if t.version ≠ "" then t.version
  else match e.version with
    | some s => if s ≠ "" then s else "1"
    | none => "1"

/-- The effective token of the part_000 variant after the module-load merge
with the payment-requirements `extra` object (no merge when `extra` is absent). -/
def mergeToken (t : TokenCfg) (extra : Option ExtraCfg) : TokenCfg :=
  match extra with
  | none => t
  | some e => { t with name := mergeName t e, version := mergeVersion t e }

/-- paywall_adapter.js line 11: `if (extra.name) TOKEN.name = extra.name`. -/
def mergeNamePA (t : TokenCfg) (e : ExtraCfg) : String :=
  match e.name with
  | some s => if s ≠ "" then s else t.name
  | none => t.name

/-- paywall_adapter.js line 12: `if (extra.version) TOKEN.version = extra.version`. -/
def mergeVersionPA (t : TokenCfg) (e : ExtraCfg) : String :=
  match e.version with
  | some s => if s ≠ "" then s else t.version
  | none => t.version

/-- The effective token of the paywall_adapter.js variant after its merge. -/
def mergeTokenPA (t : TokenCfg) (extra : Option ExtraCfg) : TokenCfg :=
  match extra with
  | none => t
  | some e => { t with name := mergeNamePA t e, version := mergeVersionPA t e }

/-- The `domain` object of a parsed incoming typed-data payload. -/
structure DomainTD where
  name : Option JsPrim
  version : Option JsPrim
  chainId : Option JsPrim
  deriving DecidableEq

/-- The `message` object of a parsed incoming typed-data payload; `toAddr`
models its `to` property (`to` is reserved in Lean). -/
structure MsgTD where
  toAddr : Option JsPrim
  recipient : Option JsPrim
  value : Option JsPrim
  deriving DecidableEq

/-- The result of `JSON.parse(args.params[1])`, as far as the interceptor
inspects it (`none` models a parse exception). -/
structure IncomingTD where
  primaryType : Option String
  domain : Option DomainTD
  message : Option MsgTD
  deriving DecidableEq

def emptyDomain : DomainTD := ⟨none, none, none⟩

def emptyMsg : MsgTD := ⟨none, none, none⟩

/-- The `{to, data}` object of an `eth_call` request (`toAddr` models `to`). -/
structure CallParams where
  toAddr : String
  data : String
  deriving DecidableEq

/-- The `{from, to, value}` object of an `eth_sendTransaction` request. -/
structure TxParams where
  fromAddr : JsPrim
  toAddr : Option JsPrim
  value : String
  deriving DecidableEq

/-- One element of a provider request's `params` array. -/
inductive RpcParam where
  | prim (p : JsPrim)
  | txObj (t : TxParams)
  | callObj (c : CallParams)
  deriving DecidableEq

/-- A provider request: `{method, params}`. -/
structure ReqArgs where
  method : String
  params : List RpcParam
  deriving DecidableEq

/-- Errors raised by the wrapped provider / fetch, propagated verbatim. -/
abbrev JsErr := String

instance {ε α : Type} [DecidableEq ε] [DecidableEq α] : DecidableEq (Except ε α) := fun a b =>
  match a, b with
  | .ok x, .ok y =>
    if h : x = y then isTrue (by rw [h]) else isFalse (fun hh => by cases hh; exact h rfl)
  | .error x, .error y =>
    if h : x = y then isTrue (by rw [h]) else isFalse (fun hh => by cases hh; exact h rfl)
  | .ok _, .error _ => isFalse (fun hh => by cases hh)
  | .error _, .ok _ => isFalse (fun hh => by cases hh)

/-- The `window.__x402_eip2612_permit` slot. -/
structure PermitArtifact where
  owner : String
  spender : Option JsPrim
  value : Option JsPrim
  nonce : Option Nat
  deadline : String
  signature : JsPrim
  deriving DecidableEq

/-- The `window.__x402_eip2612_transfer` slot. -/
structure TransferIntent where
  fromAddr : String
  toAddr : Option JsPrim
  amount : Option JsPrim
  deriving DecidableEq

/-- The `window.__x402_nativePaymentData` slot. -/
structure NativeArtifact where
  txHash : JsPrim
  fromAddr : JsPrim
  toAddr : Option JsPrim
  amountWei : String
  deriving DecidableEq

/-- The adapter's page-global pending-artifact slots. -/
structure SlotState where
  permit : Option PermitArtifact
  transfer : Option TransferIntent
  nativeData : Option NativeArtifact
  deriving DecidableEq

/-- The reshaped Permit `domain` object (field order as constructed). -/
structure PermitDomainData where
  name : Option JsPrim
  version : Option JsPrim
  chainId : Option JsPrim
  verifyingContract : String
  deriving DecidableEq

/-- The reshaped Permit `message` object (field order as constructed);
`nonce = none` models `NaN`, serialized as `null`. -/
structure PermitMsgData where
  owner : String
  spender : Option JsPrim
  value : Option JsPrim
  nonce : Option Nat
  deadline : String
  deriving DecidableEq

/-! ### `JSON.stringify` of the reshaped typed data

`JSON.stringify` emits object keys in insertion order and omits properties
whose value is `undefined`; the serializers below follow the object literals
of the source (part_000 lines 127-162 / paywall_adapter.js lines 100-135),
so the fixed field orderings — name, version, chainId, verifyingContract for
the domain and owner, spender, value, nonce, deadline for the Permit type —
are baked into them. -/

def fieldStr (k v : String) : String := jsonQuote k ++ ":" ++ v

/-- A field that is omitted when its value is `undefined`. -/
def optField (k : String) (v : Option JsPrim) : List String :=
  match v with
  | some p => [fieldStr k (serializePrim p)]
  | none => []

def joinComma : List String → String
  | [] => ""
  | [x] => x
  | x :: xs => x ++ "," ++ joinComma xs

def objStr (fs : List String) : String := "\x7b" ++ joinComma fs ++ "\x7d"

def arrStr (xs : List String) : String := "[" ++ joinComma xs ++ "]"

def typeFieldStr (n ty : String) : String :=
  objStr [fieldStr "name" (jsonQuote n), fieldStr "type" (jsonQuote ty)]

/-- The constant `types` block of the reshaped typed data. -/
def typesStr : String :=
  objStr [fieldStr "EIP712Domain" (arrStr [typeFieldStr "name" "string",
            typeFieldStr "version" "string", typeFieldStr "chainId" "uint256",
            typeFieldStr "verifyingContract" "address"]),
          fieldStr "Permit" (arrStr [typeFieldStr "owner" "address",
            typeFieldStr "spender" "address", typeFieldStr "value" "uint256",
            typeFieldStr "nonce" "uint256", typeFieldStr "deadline" "uint256"])]

def domainStr (d : PermitDomainData) : String :=
  objStr (optField "name" d.name ++ optField "version" d.version ++
    optField "chainId" d.chainId ++
    [fieldStr "verifyingContract" (jsonQuote d.verifyingContract)])

/-- In `JSON.stringify`, a `NaN` property value serializes as `null`. -/
def nonceStr : Option Nat → String
  | some n => natDecStr n
  | none => "null"

def permitMsgStr (m : PermitMsgData) : String :=
  objStr ([fieldStr "owner" (jsonQuote m.owner)] ++ optField "spender" m.spender ++
    optField "value" m.value ++
    [fieldStr "nonce" (nonceStr m.nonce), fieldStr "deadline" (jsonQuote m.deadline)])

/-- Model of `JSON.stringify(newData)`: the reshaped Permit typed-data payload string. -/
def newDataStr (d : PermitDomainData) (m : PermitMsgData) : String :=
  objStr [fieldStr "types" typesStr, fieldStr "primaryType" (jsonQuote "Permit"),
          fieldStr "domain" (domainStr d), fieldStr "message" (permitMsgStr m)]

/-! ## The provider call interceptor

`wrappedRequest` embeds the wrapper installed over `window.ethereum.request`
(part_000 lines 98-172). The environment supplies the host facilities the
wrapper uses: the merged token configuration, `JSON.parse` (a host builtin,
given as an oracle producing the parsed shape or `none` for a parse
exception), `Math.floor(Date.now() / 1000)`, and the original provider entry
point as a deterministic request-to-result map. Besides the result and the
updated slot state, the embedding returns the list of requests issued to the
original entry point, in order. -/

structure ProviderEnv where
  token : TokenCfg
  jsonParse : String → Option IncomingTD
  nowSec : Nat
  orig : ReqArgs → Except JsErr JsPrim

/-- JS `s.slice(2)`. -/
def strSlice2 (s : String) : String := String.mk (s.data.drop 2)

/-- JS `s.padStart(64, '0')`. -/
def padStart64 (s : String) : String := String.mk (padZeros 64 s.data)

/-- part_000 line 133: `'0x7ecebe00' + owner.slice(2).padStart(64, '0')`. -/
def nonceCallData (owner : String) : String := "0x7ecebe00" ++ padStart64 (strSlice2 owner)

/-- The `eth_call` issued to read the EIP-2612 nonce (part_000 line 134). -/
def ercNonceCall (env : ProviderEnv) (owner : String) : ReqArgs :=
  ⟨"eth_call", [.callObj ⟨env.token.address, nonceCallData owner⟩, .prim (.str "latest")]⟩

/-- The `msg.to || msg.recipient` destination (part_000 line 138). -/
def ercSpender (td : IncomingTD) : Option JsPrim :=
  jsOrPrim (td.message.getD emptyMsg).toAddr (td.message.getD emptyMsg).recipient

/-- The `msg.value` field, passed through verbatim in the ERC-20 branch. -/
def ercValue (td : IncomingTD) : Option JsPrim := (td.message.getD emptyMsg).value

/-- The reshaped `permitDomain` (part_000 lines 127-132): name is
`TOKEN.name || domain.name`, version is `TOKEN.version || domain.version || '1'`,
chainId is passed through, verifyingContract is `TOKEN.address`. -/
def ercDomain (env : ProviderEnv) (td : IncomingTD) : PermitDomainData :=
  ⟨jsOrPrim (some (.str env.token.name)) (td.domain.getD emptyDomain).name,
   jsOrPrim (jsOrPrim (some (.str env.token.version)) (td.domain.getD emptyDomain).version)
     (some (.str "1")),
   (td.domain.getD emptyDomain).chainId,
   env.token.address⟩

/-- The reshaped `permitMsg` (part_000 lines 136-142): nonce is
`parseInt(nonceHex, 16)` of the `eth_call` result, deadline is
`String(Math.floor(Date.now()/1000) + 3600)`. -/
def ercMsg (env : ProviderEnv) (owner : String) (td : IncomingTD) (nonceRes : JsPrim) :
    PermitMsgData :=
  ⟨owner, ercSpender td, ercValue td, parseIntOf16 nonceRes, natDecStr (env.nowSec + 3600)⟩

/-- The reshaped signing request (part_000 line 163):
`origRequest({method: 'eth_signTypedData_v4', params: [owner, JSON.stringify(newData)]})`. -/
def ercSignArgs (env : ProviderEnv) (owner : String) (td : IncomingTD) (nonceRes : JsPrim) :
    ReqArgs :=
  ⟨"eth_signTypedData_v4",
   [.prim (.str owner), .prim (.str (newDataStr (ercDomain env td) (ercMsg env owner td nonceRes)))]⟩

/-- The `eth_sendTransaction` issued by the native branch (part_000 lines
110-113): `{from: signer, to: msg.to, value: '0x' + BigInt(msg.value).toString(16)}`. -/
def nativeTxCall (p0 : JsPrim) (td : IncomingTD) (n : Int) : ReqArgs :=
  ⟨"eth_sendTransaction", [.txObj ⟨p0, (td.message.getD emptyMsg).toAddr, "0x" ++ intHexStr n⟩]⟩

/-- Outcome of the `try` block around the interception (part_000 lines
102-168): either a value was returned from inside the block together with the
artifact to store, or control fell through — because the payload did not
match, or because an exception was thrown and swallowed — after issuing the
recorded provider calls. -/
inductive InterceptOutcome where
  | fallthrough (calls : List ReqArgs)
  | doneNative (txHash : JsPrim) (art : NativeArtifact) (calls : List ReqArgs)
  | donePermit (sig : JsPrim) (art : PermitArtifact) (ti : TransferIntent) (calls : List ReqArgs)
  deriving DecidableEq

/-- The native branch (part_000 lines 106-121). `BigInt(msg.value)` throws on
a missing or malformed value; a rejected `eth_sendTransaction` is swallowed. -/
def nativeIntercept (env : ProviderEnv) (p0 : JsPrim) (td : IncomingTD) : InterceptOutcome :=
  match (td.message.getD emptyMsg).value with
  | none => .fallthrough []
  | some v =>
    match bigIntOfPrim v with
    | none => .fallthrough []
    | some n =>
      match env.orig (nativeTxCall p0 td n) with
      | .error _ => .fallthrough [nativeTxCall p0 td n]
      | .ok txHash =>
        .doneNative txHash ⟨txHash, p0, (td.message.getD emptyMsg).toAddr, jsPrimToString v⟩
          [nativeTxCall p0 td n]

/-- The ERC-20 (EIP-2612) branch (part_000 lines 122-166): nonce read, permit
reshaping, re-signing, artifact storage. Errors of either provider call are
swallowed into a fallthrough. -/
def ercIntercept (env : ProviderEnv) (owner : String) (td : IncomingTD) : InterceptOutcome :=
  match env.orig (ercNonceCall env owner) with
  | .error _ => .fallthrough [ercNonceCall env owner]
  | .ok nonceRes =>
    match env.orig (ercSignArgs env owner td nonceRes) with
    | .error _ => .fallthrough [ercNonceCall env owner, ercSignArgs env owner td nonceRes]
    | .ok sig =>
      .donePermit sig
        ⟨owner, ercSpender td, ercValue td, parseIntOf16 nonceRes,
         natDecStr (env.nowSec + 3600), sig⟩
        ⟨owner, ercSpender td, ercValue td⟩
        [ercNonceCall env owner, ercSignArgs env owner td nonceRes]

/-- Detection and dispatch inside the `try` block (part_000 lines 103-167):
`JSON.parse(args.params[1])` then the primaryType check, then the
native/ERC-20 split. A missing or non-string second parameter, a parse
failure, a non-matching primaryType, or a non-string signer in the ERC-20
branch (where `owner.slice(2)` would throw) all fall through. Note the
outcome never reads the slot state. -/
def interceptCore (env : ProviderEnv) (args : ReqArgs) : InterceptOutcome :=
  match args.params with
  | .prim p0 :: .prim (.str p1) :: _ =>
    match env.jsonParse p1 with
    | none => .fallthrough []
    | some td =>
      if td.primaryType = some "TransferWithAuthorization" then
        if env.token.native then nativeIntercept env p0 td
        else
          match p0 with
          | .str owner => ercIntercept env owner td
          | _ => .fallthrough []
      else .fallthrough []
  | _ => .fallthrough []

/-- The wrapped `window.ethereum.request` of the part_000 variant
(lines 100-171): intercept matching `eth_signTypedData_v4` calls, fall back
to forwarding the unmodified original request otherwise. -/
def wrappedRequest (env : ProviderEnv) (st : SlotState) (args : ReqArgs) :
    Except JsErr JsPrim × SlotState × List ReqArgs :=
  if args.method = "eth_signTypedData_v4" then
    match interceptCore env args with
    | .fallthrough calls => (env.orig args, st, calls ++ [args])
    | .doneNative h art calls => (.ok h, { st with nativeData := some art }, calls)
    | .donePermit s art ti calls =>
      (.ok s, { st with permit := some art, transfer := some ti }, calls)
  else (env.orig args, st, [args])

/-! ### The paywall_adapter.js variant (independent transcription)

paywall_adapter.js lines 89-145: same wrapper without the native branch. -/

/-- The ERC-20 branch as transcribed from paywall_adapter.js lines 96-139. -/
def ercInterceptPA (env : ProviderEnv) (owner : String) (td : IncomingTD) : InterceptOutcome :=
  let domain := td.domain.getD emptyDomain
  let msg := td.message.getD emptyMsg
  let deadline := env.nowSec + 3600
  let pd : PermitDomainData :=
    ⟨jsOrPrim (some (.str env.token.name)) domain.name,
     jsOrPrim (jsOrPrim (some (.str env.token.version)) domain.version) (some (.str "1")),
     domain.chainId, env.token.address⟩
  let callArgs : ReqArgs :=
    ⟨"eth_call", [.callObj ⟨env.token.address, nonceCallData owner⟩, .prim (.str "latest")]⟩
  match env.orig callArgs with
  | .error _ => .fallthrough [callArgs]
  | .ok nonceRes =>
    let nonce := parseIntOf16 nonceRes
    let spender := jsOrPrim msg.toAddr msg.recipient
    let pm : PermitMsgData := ⟨owner, spender, msg.value, nonce, natDecStr deadline⟩
    let signArgs : ReqArgs :=
      ⟨"eth_signTypedData_v4", [.prim (.str owner), .prim (.str (newDataStr pd pm))]⟩
    match env.orig signArgs with
    | .error _ => .fallthrough [callArgs, signArgs]
    | .ok sig =>
      .donePermit sig
        ⟨owner, spender, msg.value, nonce, natDecStr deadline, sig⟩
        ⟨owner, spender, msg.value⟩
        [callArgs, signArgs]

/-- Detection and dispatch of the paywall_adapter.js variant (lines 92-142):
no native branch. -/
def interceptCorePA (env : ProviderEnv) (args : ReqArgs) : InterceptOutcome :=
  match args.params with
  | .prim p0 :: .prim (.str p1) :: _ =>
    match env.jsonParse p1 with
    | none => .fallthrough []
    | some td =>
      if td.primaryType = some "TransferWithAuthorization" then
        match p0 with
        | .str owner => ercInterceptPA env owner td
        | _ => .fallthrough []
      else .fallthrough []
  | _ => .fallthrough []

/-- The wrapped `window.ethereum.request` of the paywall_adapter.js variant
(lines 91-144). -/
def wrappedRequestPA (env : ProviderEnv) (st : SlotState) (args : ReqArgs) :
    Except JsErr JsPrim × SlotState × List ReqArgs :=
  if args.method = "eth_signTypedData_v4" then
    match interceptCorePA env args with
    | .fallthrough calls => (env.orig args, st, calls ++ [args])
    | .doneNative h art calls => (.ok h, { st with nativeData := some art }, calls)
    | .donePermit s art ti calls =>
      (.ok s, { st with permit := some art, transfer := some ti }, calls)
  else (env.orig args, st, [args])

/-! ## The network call interceptor

`wrappedFetch` embeds the wrapper installed over `window.fetch` (part_000
lines 174-201). A request is `fetch(url, init)`, where `init.headers` is
either a plain header-map object or a native `Headers` collection; `rest`
stands opaquely for every other `init` property, which the wrapper never
touches. Besides the response and updated state, the embedding returns the
request actually forwarded to the original fetch and a flag recording whether
the header was substituted. -/

inductive HeadersVal where
  | hmap (entries : List (String × String))
  | hnative (entries : List (String × String))
  deriving DecidableEq

structure ReqInit where
  headers : Option HeadersVal
  rest : String
  deriving DecidableEq

structure FetchReq where
  url : JsPrim
  init : Option ReqInit
  deriving DecidableEq

structure FetchEnv where
  token : TokenCfg
  network : Option String
  origFetch : FetchReq → JsPrim

/-- Property lookup `h[k]` on a plain object. -/
def mapGet (l : List (String × String)) (k : String) : Option String :=
  (l.find? (fun kv => kv.1 = k)).map Prod.snd

/-- Property assignment `h[k] = v` on a plain object. -/
def mapSet (l : List (String × String)) (k v : String) : List (String × String) :=
  if l.any (fun kv => kv.1 = k) then l.map (fun kv => if kv.1 = k then (k, v) else kv)
  else l ++ [(k, v)]

/-- Lowercase an ASCII string (as `Headers` name normalization does). -/
def lowerStr (s : String) : String :=
  String.mk (s.data.map (fun c =>
    if 65 ≤ c.toNat ∧ c.toNat ≤ 90 then Char.ofNat (c.toNat + 32) else c))

/-- part_000 line 179: `h['X-PAYMENT'] || h['x-payment']`. Property indexing
on a native `Headers` object does not read its entries, so that case yields
`undefined`; on a plain map only the two exact key spellings are consulted. -/
def xpayDetect : HeadersVal → Option String
  | .hmap l =>
    match mapGet l "X-PAYMENT" with
    | some v => if v = "" then mapGet l "x-payment" else some v
    | none => mapGet l "x-payment"
  | .hnative _ => none

/-- part_000 line 186: `h instanceof Headers ? h.set('X-PAYMENT', e) : h['X-PAYMENT'] = e`.
`Headers.set` matches names case-insensitively and stores them lowercased. -/
def headersSet (h : HeadersVal) (v : String) : HeadersVal :=
  match h with
  | .hmap l => .hmap (mapSet l "X-PAYMENT" v)
  | .hnative l =>
    .hnative (if l.any (fun kv => lowerStr kv.1 = "x-payment") then
        l.map (fun kv => if lowerStr kv.1 = "x-payment" then (kv.1, v) else kv)
      else l ++ [("x-payment", v)])

/-- The `window.x402?.paymentRequirements?.[0]?.network || 'base-sepolia'` value. -/
def effNetwork (n : Option String) : String :=
  match n with
  | some s => if s = "" then "base-sepolia" else s
  | none => "base-sepolia"

/-- Model of `JSON.stringify` on the stored permit artifact (key order of part_000
line 164). -/
def permitArtStr (p : PermitArtifact) : String :=
  objStr ([fieldStr "owner" (jsonQuote p.owner)] ++ optField "spender" p.spender ++
    optField "value" p.value ++
    [fieldStr "nonce" (nonceStr p.nonce), fieldStr "deadline" (jsonQuote p.deadline),
     fieldStr "signature" (serializePrim p.signature)])

/-- Model of `JSON.stringify` on the stored transfer intent (key order of part_000
line 165). -/
def transferStr (t : TransferIntent) : String :=
  objStr ([fieldStr "from" (jsonQuote t.fromAddr)] ++ optField "to" t.toAddr ++
    optField "amount" t.amount)

/-- The ERC-20 payment payload (part_000 line 191):
`{x402Version: 1, scheme: 'exact', network, payload: {permit, transfer}}`. -/
def permitPayloadStr (net : String) (p : PermitArtifact) (t : Option TransferIntent) : String :=
  objStr [fieldStr "x402Version" "1", fieldStr "scheme" (jsonQuote "exact"),
          fieldStr "network" (jsonQuote net),
          fieldStr "payload" (objStr ([fieldStr "permit" (permitArtStr p)] ++
            (match t with
             | some ti => [fieldStr "transfer" (transferStr ti)]
             | none => [])))]

/-- The native payment payload (part_000 line 184):
`{x402Version: 1, scheme: 'native', network, payload: {txHash, from, to, amountWei}}`. -/
def nativePayloadStr (net : String) (np : NativeArtifact) : String :=
  objStr [fieldStr "x402Version" "1", fieldStr "scheme" (jsonQuote "native"),
          fieldStr "network" (jsonQuote net),
          fieldStr "payload" (objStr ([fieldStr "txHash" (serializePrim np.txHash),
            fieldStr "from" (serializePrim np.fromAddr)] ++ optField "to" np.toAddr ++
            [fieldStr "amountWei" (jsonQuote np.amountWei)]))]

/-- The wrapped `window.fetch` of the part_000 variant (lines 175-201).
The native branch runs when `IS_NATIVE` and a native artifact is stored;
otherwise a stored permit artifact is consumed; otherwise the request passes
through untouched. A `btoa` failure throws inside the `try`, which is caught
before any mutation, so the request and state pass through unchanged. -/
def wrappedFetch (env : FetchEnv) (st : SlotState) (req : FetchReq) :
    JsPrim × SlotState × FetchReq × Bool :=
  let pass := (env.origFetch req, st, req, false)
  match req.init with
  | none => pass
  | some init =>
    match init.headers with
    | none => pass
    | some h =>
      match xpayDetect h with
      | none => pass
      | some xv =>
        if xv = "" then pass
        else
          match env.token.native, st.nativeData with
          | true, some np =>
            match btoaOpt (nativePayloadStr (effNetwork env.network) np) with
            | none => pass
            | some enc =>
              let req' : FetchReq := ⟨req.url, some ⟨some (headersSet h enc), init.rest⟩⟩
              (env.origFetch req', { st with nativeData := none }, req', true)
          | _, _ =>
            match st.permit with
            | some pa =>
              match btoaOpt (permitPayloadStr (effNetwork env.network) pa st.transfer) with
              | none => pass
              | some enc =>
                let req' : FetchReq := ⟨req.url, some ⟨some (headersSet h enc), init.rest⟩⟩
                (env.origFetch req', { st with permit := none, transfer := none }, req', true)
            | none => pass

/-! ## The interception subsystem as a step system (for the global-state
invariants): a run is any interleaving of wrapped signing calls and wrapped
fetch calls against the page-constant token configuration, starting from
empty slots. -/

inductive SysStep where
  | sign (env : ProviderEnv) (args : ReqArgs)
  | net (env : FetchEnv) (req : FetchReq)

def stepState (cfg : TokenCfg) (st : SlotState) : SysStep → SlotState
  | .sign env args => (wrappedRequest { env with token := cfg } st args).2.1
  | .net env req => (wrappedFetch { env with token := cfg } st req).2.1

def initSlots : SlotState := ⟨none, none, none⟩

def runSteps (cfg : TokenCfg) (steps : List SysStep) : SlotState :=
  steps.foldl (stepState cfg) initSlots

/-! ## Claim theorems: provider call interceptor -/

/-- The parse result the interceptor's detection step sees, if any:
`JSON.parse(args.params[1])` when the second parameter is a string. -/
def payloadParsed (env : ProviderEnv) (args : ReqArgs) : Option IncomingTD :=
  match args.params with
  | _ :: .prim (.str p1) :: _ => env.jsonParse p1
  | _ => none

/-- The strengthened slot invariant: under a native configuration the permit
slots stay empty, under a non-native one the native slot stays empty. -/
def slotInv (cfg : TokenCfg) (st : SlotState) : Prop :=
  (cfg.native = true → st.permit = none ∧ st.transfer = none) ∧
  (cfg.native = false → st.nativeData = none)

/-! ## Concrete scenarios (witnesses and counterexamples) -/

def w1tok : TokenCfg := ⟨"USDC", "0xToken", 6, "", "", false⟩

def w1td : IncomingTD :=
  ⟨some "TransferWithAuthorization",
   some ⟨some (.str "USDC"), none, some (.num 84532)⟩,
   some ⟨some (.str "0xSpender"), none, some (.str "1000000")⟩⟩

def w1orig : ReqArgs → Except JsErr JsPrim := fun a =>
  if a.method = "eth_call" then .ok (.str "0x5") else .ok (.str "0xsig")

def w1env : ProviderEnv := ⟨w1tok, fun _ => some w1td, 1000, w1orig⟩

def w1args : ReqArgs := ⟨"eth_signTypedData_v4", [.prim (.str "0xOwner"), .prim (.str "p")]⟩

def w2pa : PermitArtifact :=
  ⟨"0xOwner", some (.str "0xSpender"), some (.str "1000000"), some 5, "4600", .str "0xsig"⟩

def w2ti : TransferIntent := ⟨"0xOwner", some (.str "0xSpender"), some (.str "1000000")⟩

def w2st : SlotState := ⟨some w2pa, some w2ti, none⟩

def w2env : FetchEnv := ⟨w1tok, some "base-sepolia", fun _ => .null⟩

def w2l : List (String × String) := [("X-PAYMENT", "placeholder")]

def w2req : FetchReq := ⟨.str "/api", some ⟨some (.hmap w2l), "rest"⟩⟩

def w2enc : String :=
  match btoaOpt (permitPayloadStr (effNetwork w2env.network) w2pa (some w2ti)) with
  | some e => e
  | none => ""

def w3env : ProviderEnv := ⟨w1tok, fun _ => none, 0, fun _ => .ok .null⟩

def w3args : ReqArgs := ⟨"eth_accounts", []⟩

def w4args : ReqArgs := ⟨"eth_signTypedData_v4", [.prim (.str "0xOwner"), .prim (.str "bad")]⟩

def w5tok : TokenCfg := ⟨"ETH", "", 18, "", "", true⟩

def w5td : IncomingTD :=
  ⟨some "TransferWithAuthorization", none,
   some ⟨some (.str "0xRecipient"), none, some (.str "2000000000000000000")⟩⟩

def w5orig : ReqArgs → Except JsErr JsPrim := fun a =>
  if a.method = "eth_sendTransaction" then .ok (.str "0xHash") else .error "unexpected"

def w5env : ProviderEnv := ⟨w5tok, fun _ => some w5td, 0, w5orig⟩

def w5args : ReqArgs := ⟨"eth_signTypedData_v4", [.prim (.str "0xOwner"), .prim (.str "p")]⟩

def c6req : FetchReq := ⟨.str "/api", some ⟨some (.hmap [("X-Payment", "placeholder")]), ""⟩⟩

def c10t : TokenCfg := ⟨"USDC", "0xA", 6, "Foo", "ver1", false⟩

def c10extra : ExtraCfg := ⟨some "Bar", some "2"⟩

def c10td : IncomingTD :=
  ⟨some "TransferWithAuthorization", some ⟨none, none, some (.num 84532)⟩,
   some ⟨some (.str "0xS"), none, some (.str "7")⟩⟩

def c10orig : ReqArgs → Except JsErr JsPrim := fun a =>
  if a.method = "eth_call" then .ok (.str "0x1") else .ok (.str "0xsig")

def c10env1 : ProviderEnv := ⟨mergeToken c10t (some c10extra), fun _ => some c10td, 100, c10orig⟩

def c10env2 : ProviderEnv := ⟨mergeTokenPA c10t (some c10extra), fun _ => some c10td, 100, c10orig⟩

def c10args : ReqArgs := ⟨"eth_signTypedData_v4", [.prim (.str "0xOwner"), .prim (.str "p")]⟩

theorem hexCharVal_digitCh {d : Nat} (h : d < 10) : hexCharVal (digitCh d) = d := by
  interval_cases d <;> decide

theorem isDig_digitCh {d : Nat} (h : d < 10) : isDig (digitCh d) := by
  interval_cases d <;> decide

theorem hexCharVal_le_of_isDig {c : Char} (h : isDig c) : hexCharVal c ≤ 9 := by
  obtain ⟨h1, h2⟩ := h
  unfold hexCharVal
  rw [if_neg (by omega), if_neg (by omega)]
  omega

theorem isDig_ne_dot {c : Char} (h : isDig c) : c ≠ '.' := by
  rintro rfl
  obtain ⟨h1, _⟩ := h
  revert h1
  decide

theorem foldVal_linear (l : List Char) (a : Nat) :
    foldVal 10 l a = a * 10 ^ l.length + foldVal 10 l 0 := by
  induction l generalizing a with
  | nil => simp [foldVal]
  | cons c l ih =>
    simp only [foldVal, List.foldl] at *
    rw [ih (10 * a + hexCharVal c), ih (10 * 0 + hexCharVal c)]
    simp only [List.length_cons]
    ring

theorem parseChars_append (l₁ l₂ : List Char) :
    parseChars (l₁ ++ l₂) = parseChars l₁ * 10 ^ l₂.length + parseChars l₂ := by
  simp only [parseChars, foldVal, List.foldl_append]
  rw [show List.foldl (fun a c => 10 * a + hexCharVal c) (List.foldl (fun a c => 10 * a + hexCharVal c) 0 l₁) l₂ = foldVal 10 l₂ (foldVal 10 l₁ 0) from rfl]
  rw [foldVal_linear]
  rfl

theorem parseChars_replicate_zero (k : Nat) : parseChars (List.replicate k '0') = 0 := by
  induction k with
  | zero => rfl
  | succ k ih =>
    rw [List.replicate_succ]
    show foldVal 10 (List.replicate k '0') (10 * 0 + hexCharVal '0') = 0
    rw [show (10 * 0 + hexCharVal '0') = 0 from by decide]
    exact ih

theorem parseChars_zero_pad (k : Nat) (l : List Char) :
    parseChars (List.replicate k '0' ++ l) = parseChars l := by
  rw [parseChars_append, parseChars_replicate_zero]
  simp

theorem parseChars_singleton (c : Char) : parseChars [c] = hexCharVal c := by
  simp [parseChars, foldVal, List.foldl]

theorem parse_toCharsAux {fuel n : Nat} (h : n < fuel) :
    parseChars (toCharsAux 10 fuel n) = n := by
  induction fuel generalizing n with
  | zero => omega
  | succ fuel ih =>
    simp only [toCharsAux]
    by_cases hn : n < 10
    · rw [if_pos hn, parseChars_singleton, hexCharVal_digitCh hn]
    · rw [if_neg hn, parseChars_append, parseChars_singleton,
        hexCharVal_digitCh (Nat.mod_lt n (by omega))]
      have hdiv : n / 10 < n := Nat.div_lt_self (by omega) (by omega)
      rw [ih (by omega)]
      simp only [List.length_cons, List.length_nil, pow_one]
      omega

theorem parseChars_natToChars (n : Nat) : parseChars (natToChars 10 n) = n :=
  parse_toCharsAux (Nat.lt_succ_self n)

theorem toCharsAux_digits {fuel n : Nat} (h : n < fuel) :
    ∀ c ∈ toCharsAux 10 fuel n, isDig c := by
  induction fuel generalizing n with
  | zero => omega
  | succ fuel ih =>
    simp only [toCharsAux]
    by_cases hn : n < 10
    · rw [if_pos hn]
      intro c hc
      rw [List.mem_singleton] at hc
      exact hc ▸ isDig_digitCh hn
    · rw [if_neg hn]
      intro c hc
      rcases List.mem_append.mp hc with hc | hc
      · have hdiv : n / 10 < n := Nat.div_lt_self (by omega) (by omega)
        exact ih (by omega) c hc
      · rw [List.mem_singleton] at hc
        exact hc ▸ isDig_digitCh (Nat.mod_lt n (by omega))

theorem natToChars_digits (n : Nat) : ∀ c ∈ natToChars 10 n, isDig c :=
  toCharsAux_digits (Nat.lt_succ_self n)

theorem parseChars_lt (l : List Char) (h : ∀ c ∈ l, isDig c) :
    parseChars l < 10 ^ l.length := by
  induction l with
  | nil => simp [parseChars, foldVal]
  | cons c l ih =>
    have hc : hexCharVal c ≤ 9 := hexCharVal_le_of_isDig (h c (by simp))
    have hl : parseChars l < 10 ^ l.length := ih (fun x hx => h x (by simp [hx]))
    have : parseChars (c :: l) = hexCharVal c * 10 ^ l.length + parseChars l := by
      rw [show (c :: l) = [c] ++ l from rfl, parseChars_append, parseChars_singleton]
    rw [this]
    simp only [List.length_cons, pow_succ]
    nlinarith

theorem toCharsAux_length_le {fuel n k : Nat} (h : n < fuel) (hk : 1 ≤ k)
    (hn : n < 10 ^ k) : (toCharsAux 10 fuel n).length ≤ k := by
  induction fuel generalizing n k with
  | zero => omega
  | succ fuel ih =>
    simp only [toCharsAux]
    by_cases h10 : n < 10
    · rw [if_pos h10]
      simpa using hk
    · rw [if_neg h10]
      have hk2 : 2 ≤ k := by
        by_contra hcon
        have : k = 1 := by omega
        subst this
        simp at hn
        omega
      have hdiv : n / 10 < n := Nat.div_lt_self (by omega) (by omega)
      have hdivpow : n / 10 < 10 ^ (k - 1) := by
        have : (10 : Nat) ^ k = 10 ^ (k - 1) * 10 := by
          rw [← pow_succ]
          congr 1
          omega
        rw [Nat.div_lt_iff_lt_mul (by omega)]
        omega
      have := ih (n := n / 10) (k := k - 1) (by omega) (by omega) hdivpow
      simp only [List.length_append, List.length_cons, List.length_nil]
      omega

theorem natToChars_length_le {n k : Nat} (hk : 1 ≤ k) (hn : n < 10 ^ k) :
    (natToChars 10 n).length ≤ k :=
  toCharsAux_length_le (Nat.lt_succ_self n) hk hn

/-- Decomposition of `dropTrailingZeros`: the original list is the stripped list
followed by a run of zero characters. -/
theorem dropTrailingZeros_spec (l : List Char) :
    ∃ k, l = dropTrailingZeros l ++ List.replicate k '0' ∧
      (dropTrailingZeros l).length + k = l.length := by
  refine ⟨(l.reverse.takeWhile (fun c => c = '0')).length, ?_, ?_⟩
  · have hsplit := List.takeWhile_append_dropWhile (p := fun c => decide (c = '0')) (l := l.reverse)
    have htw : l.reverse.takeWhile (fun c => c = '0') =
        List.replicate (l.reverse.takeWhile (fun c => c = '0')).length '0' := by
      apply List.eq_replicate_of_mem
      intro b hb
      have := List.mem_takeWhile_imp hb
      simpa using this
    conv_lhs => rw [← l.reverse_reverse, ← hsplit]
    rw [List.reverse_append, dropTrailingZeros]
    congr 1
    rw [htw, List.reverse_replicate]
    simp
  · have hsplit := List.takeWhile_append_dropWhile (p := fun c => decide (c = '0')) (l := l.reverse)
    have := congrArg List.length hsplit
    simp only [List.length_append, List.length_reverse] at this
    simp only [dropTrailingZeros, List.length_reverse]
    omega

theorem dropTrailingZeros_subset (l : List Char) :
    ∀ c ∈ dropTrailingZeros l, c ∈ l := by
  intro c hc
  obtain ⟨k, hdec, -⟩ := dropTrailingZeros_spec l
  rw [hdec]
  exact List.mem_append_left _ hc

/-- If every element of the front satisfies `p`, `takeWhile`/`dropWhile`
pass over it. -/
theorem takeWhile_dropWhile_append {p : Char → Bool} {l₁ : List Char} (l₂ : List Char)
    (h : ∀ c ∈ l₁, p c = true) :
    (l₁ ++ l₂).takeWhile p = l₁ ++ l₂.takeWhile p ∧
    (l₁ ++ l₂).dropWhile p = l₂.dropWhile p := by
  induction l₁ with
  | nil => simp
  | cons c l ih =>
    have hc : p c = true := h c (by simp)
    have := ih (fun x hx => h x (by simp [hx]))
    simp only [List.cons_append, List.takeWhile_cons, List.dropWhile_cons, hc]
    simp [this.1, this.2]

theorem padZeros_digits {k : Nat} {l : List Char} (h : ∀ c ∈ l, isDig c) :
    ∀ c ∈ padZeros k l, isDig c := by
  intro c hc
  rcases List.mem_append.mp hc with hc | hc
  · rw [List.eq_of_mem_replicate hc]
    decide
  · exact h c hc

theorem parseChars_padZeros (k : Nat) (l : List Char) :
    parseChars (padZeros k l) = parseChars l :=
  parseChars_zero_pad _ l

theorem formatAmount_data (a d : Nat) :
    (formatAmount a d).data =
      (if fracChars a d = [] then natToChars 10 (a / 10 ^ d)
       else natToChars 10 (a / 10 ^ d) ++ '.' :: fracChars a d) := rfl

theorem fracChars_digits (a d : Nat) : ∀ c ∈ fracChars a d, isDig c := by
  intro c hc
  have h1 := dropTrailingZeros_subset _ c hc
  have h2 := List.take_subset 4 _ h1
  exact padZeros_digits (natToChars_digits _) c h2

/-- Splitting the formatter output at the decimal point recovers the integer
digit list and the fractional digit list. -/
theorem formatted_split (a d : Nat) :
    (formatAmount a d).data.takeWhile (fun c => c ≠ '.') = natToChars 10 (a / 10 ^ d) ∧
    ((formatAmount a d).data.dropWhile (fun c => c ≠ '.')).tail = fracChars a d := by
  have hip : ∀ c ∈ natToChars 10 (a / 10 ^ d), (fun c => decide (c ≠ '.')) c = true := by
    intro c hc
    simp only [decide_eq_true_eq]
    exact isDig_ne_dot (natToChars_digits _ c hc)
  rw [formatAmount_data]
  by_cases hf : fracChars a d = []
  · rw [if_pos hf]
    have := takeWhile_dropWhile_append (p := fun c => decide (c ≠ '.')) [] hip
    rw [List.append_nil] at this
    rw [this.1, this.2]
    simp [hf]
  · rw [if_neg hf]
    have := takeWhile_dropWhile_append (p := fun c => decide (c ≠ '.'))
      ('.' :: fracChars a d) hip
    rw [this.1, this.2]
    constructor
    · simp [List.takeWhile_cons]
    · simp [List.dropWhile_cons]

theorem parseFormatted_formatAmount (a d : Nat) :
    parseFormatted (formatAmount a d) d =
      (a / 10 ^ d) * 10 ^ d + parseChars (fracChars a d) * 10 ^ (d - (fracChars a d).length) := by
  obtain ⟨h1, h2⟩ := formatted_split a d
  simp only [parseFormatted]
  rw [h1, h2, parseChars_natToChars]

/-- Length of the padded remainder string is exactly `d` when `1 ≤ d`. -/
theorem padded_length {a d : Nat} (hd : 1 ≤ d) :
    (padZeros d (natToChars 10 (a % 10 ^ d))).length = d := by
  have hm : a % 10 ^ d < 10 ^ d := Nat.mod_lt _ (pow_pos (by omega) d)
  have hlen := natToChars_length_le hd hm
  simp only [padZeros, List.length_append, List.length_replicate]
  omega

/-- Value/length decomposition of the stripped fractional part of a digit list. -/
theorem strip_value (s : List Char) :
    ∃ k, parseChars s = parseChars (dropTrailingZeros s) * 10 ^ k ∧
      (dropTrailingZeros s).length + k = s.length := by
  obtain ⟨k, hdec, hlen⟩ := dropTrailingZeros_spec s
  refine ⟨k, ?_, hlen⟩
  conv_lhs => rw [hdec]
  rw [parseChars_append, parseChars_replicate_zero, List.length_replicate]
  simp

/-- Core arithmetic of the formatter round trip. -/
theorem roundtrip_core (a d : Nat) :
    parseFormatted (formatAmount a d) d ≤ a ∧
    (d ≤ 4 → parseFormatted (formatAmount a d) d = a) ∧
    (4 < d → a - parseFormatted (formatAmount a d) d < 10 ^ (d - 4)) := by
  rcases Nat.eq_zero_or_pos d with hd0 | hd1
  · subst hd0
    have hfrac : fracChars a 0 = [] := by
      simp only [fracChars, pow_zero, Nat.mod_one]
      decide
    rw [parseFormatted_formatAmount, hfrac]
    simp [parseChars, foldVal]
  · -- d ≥ 1: the padded remainder has exactly d digits and reads back to a % 10^d
    have hpdlen : (padZeros d (natToChars 10 (a % 10 ^ d))).length = d := padded_length hd1
    have hpdparse : parseChars (padZeros d (natToChars 10 (a % 10 ^ d))) = a % 10 ^ d := by
      rw [parseChars_padZeros, parseChars_natToChars]
    have hpddig : ∀ c ∈ padZeros d (natToChars 10 (a % 10 ^ d)), isDig c :=
      padZeros_digits (natToChars_digits _)
    have hqm : a / 10 ^ d * 10 ^ d + a % 10 ^ d = a := by
      rw [Nat.mul_comm]
      exact Nat.div_add_mod a (10 ^ d)
    rw [parseFormatted_formatAmount]
    have hfc : fracChars a d =
        dropTrailingZeros (List.take 4 (padZeros d (natToChars 10 (a % 10 ^ d)))) := rfl
    by_cases hd4 : d ≤ 4
    · -- the whole remainder survives the 4-character truncation
      have htake : List.take 4 (padZeros d (natToChars 10 (a % 10 ^ d))) =
          padZeros d (natToChars 10 (a % 10 ^ d)) := List.take_of_length_le (by omega)
      obtain ⟨k, hval, hlen⟩ := strip_value (padZeros d (natToChars 10 (a % 10 ^ d)))
      have hfrace : parseChars (fracChars a d) * 10 ^ (d - (fracChars a d).length) =
          a % 10 ^ d := by
        rw [hfc, htake]
        have hk : d - (dropTrailingZeros (padZeros d (natToChars 10 (a % 10 ^ d)))).length = k := by
          omega
        rw [hk, ← hval]
        exact hpdparse
      rw [hfrace]
      exact ⟨le_of_eq hqm, fun _ => hqm, fun h4 => by omega⟩
    · -- 4 < d: the fractional part reads back to (m / 10^(d-4)) * 10^(d-4)
      push_neg at hd4
      have hKpos : 0 < 10 ^ (d - 4) := pow_pos (by omega) _
      have hsplit : List.take 4 (padZeros d (natToChars 10 (a % 10 ^ d))) ++
          List.drop 4 (padZeros d (natToChars 10 (a % 10 ^ d))) =
          padZeros d (natToChars 10 (a % 10 ^ d)) := List.take_append_drop 4 _
      have hslen : (List.take 4 (padZeros d (natToChars 10 (a % 10 ^ d)))).length = 4 := by
        rw [List.length_take]
        omega
      have hdlen : (List.drop 4 (padZeros d (natToChars 10 (a % 10 ^ d)))).length = d - 4 := by
        rw [List.length_drop]
        omega
      have hpdval : parseChars (List.take 4 (padZeros d (natToChars 10 (a % 10 ^ d)))) * 10 ^ (d - 4) +
          parseChars (List.drop 4 (padZeros d (natToChars 10 (a % 10 ^ d)))) = a % 10 ^ d := by
        have h := parseChars_append (List.take 4 (padZeros d (natToChars 10 (a % 10 ^ d))))
          (List.drop 4 (padZeros d (natToChars 10 (a % 10 ^ d))))
        rw [hsplit, hdlen] at h
        omega
      have hR : parseChars (List.drop 4 (padZeros d (natToChars 10 (a % 10 ^ d)))) < 10 ^ (d - 4) := by
        have h := parseChars_lt (List.drop 4 (padZeros d (natToChars 10 (a % 10 ^ d))))
          (fun c hc => hpddig c (List.drop_subset _ _ hc))
        rw [hdlen] at h
        exact h
      obtain ⟨k, hval, hlen⟩ := strip_value (List.take 4 (padZeros d (natToChars 10 (a % 10 ^ d))))
      have hfrace : parseChars (fracChars a d) * 10 ^ (d - (fracChars a d).length) =
          parseChars (List.take 4 (padZeros d (natToChars 10 (a % 10 ^ d)))) * 10 ^ (d - 4) := by
        rw [hfc]
        have hexp : d - (dropTrailingZeros (List.take 4 (padZeros d (natToChars 10 (a % 10 ^ d))))).length =
            k + (d - 4) := by
          omega
        rw [hexp, pow_add, ← Nat.mul_assoc, ← hval]
      rw [hfrace]
      exact ⟨by omega, fun h => by omega, fun _ => by omega⟩

/-- C7: for every non-negative integer amount `a` and decimal count `d`, the
formatter output consists of the exact integer part `a / 10^d` (in decimal),
and a fractional part equal to the remainder `a % 10^d` zero-padded to `d`
digits, truncated to its first 4 digits and stripped of trailing zeros; the
output contains a decimal point exactly when that fractional part is nonempty,
and the integer part and remainder digits read back exactly (no precision
loss). -/
theorem c7_formatAmount_spec (a d : Nat) :
    (formatAmount a d).data =
      (if fracChars a d = [] then natToChars 10 (a / 10 ^ d)
       else natToChars 10 (a / 10 ^ d) ++ '.' :: fracChars a d) ∧
    fracChars a d =
      dropTrailingZeros (List.take 4 (padZeros d (natToChars 10 (a % 10 ^ d)))) ∧
    parseChars (natToChars 10 (a / 10 ^ d)) = a / 10 ^ d ∧
    parseChars (natToChars 10 (a % 10 ^ d)) = a % 10 ^ d ∧
    ('.' ∈ (formatAmount a d).data ↔ fracChars a d ≠ []) := by
  refine ⟨formatAmount_data a d, rfl, parseChars_natToChars _, parseChars_natToChars _, ?_⟩
  rw [formatAmount_data]
  by_cases hf : fracChars a d = []
  · rw [if_pos hf]
    simp only [hf, ne_eq, not_true_eq_false, iff_false]
    intro hmem
    exact isDig_ne_dot (natToChars_digits _ '.' hmem) rfl
  · rw [if_neg hf]
    simp only [ne_eq, hf, not_false_eq_true, iff_true]
    exact List.mem_append_right _ (List.mem_cons_self _ _)

/-- C8: for all amounts `a` and decimal counts `d ≤ 36`, parsing the formatter
output back (integer part times `10^d` plus fractional digits scaled to atomic
units) never exceeds `a`, recovers `a` exactly when `d ≤ 4`, and is within
`10^(d-4)` of `a` when `d > 4` (4-fractional-digit truncation tolerance). -/
theorem c8_format_roundtrip (a d : Nat) (hd : d ≤ 36) :
    parseFormatted (formatAmount a d) d ≤ a ∧
    (d ≤ 4 → parseFormatted (formatAmount a d) d = a) ∧
    (4 < d → a - parseFormatted (formatAmount a d) d < 10 ^ (d - 4)) :=
  roundtrip_core a d

theorem c8_format_roundtrip_witness :
    (6 : Nat) ≤ 36 ∧
    (parseFormatted (formatAmount 123456789 6) 6 ≤ 123456789 ∧
     ((6 : Nat) ≤ 4 → parseFormatted (formatAmount 123456789 6) 6 = 123456789) ∧
     ((4 : Nat) < 6 → 123456789 - parseFormatted (formatAmount 123456789 6) 6 < 10 ^ (6 - 4))) :=
  ⟨by decide, c8_format_roundtrip 123456789 6 (by decide)⟩

example : formatAmount 123456789 6 = "123.4567" := by decide

example : formatAmount 1000000 6 = "1" := by decide

example : formatAmount 1500000 18 = "0" := by decide

theorem interceptCore_nonmatching (env : ProviderEnv) (args : ReqArgs)
    (h : ∀ td, payloadParsed env args = some td →
      td.primaryType ≠ some "TransferWithAuthorization") :
    interceptCore env args = .fallthrough [] := by
  unfold interceptCore
  split
  · rename_i p0 p1 rest heq
    have hpp : payloadParsed env args = env.jsonParse p1 := by
      unfold payloadParsed
      rw [heq]
    cases hjp : env.jsonParse p1 with
    | none => rfl
    | some td =>
      have hne := h td (by rw [hpp, hjp])
      dsimp only
      rw [if_neg hne]
  · rfl

/-- C3: every provider call whose method is not `eth_signTypedData_v4`, or
whose parsed payload does not have primaryType `TransferWithAuthorization`,
is forwarded to the original entry point with its arguments unchanged — a
single call, whose result (value or error) is returned verbatim, so the
wrapped provider is observationally identical to the unwrapped one there. -/
theorem c3_passthrough (env : ProviderEnv) (st : SlotState) (args : ReqArgs)
    (h : args.method ≠ "eth_signTypedData_v4" ∨
      ∀ td, payloadParsed env args = some td →
        td.primaryType ≠ some "TransferWithAuthorization") :
    wrappedRequest env st args = (env.orig args, st, [args]) := by
  unfold wrappedRequest
  by_cases hm : args.method = "eth_signTypedData_v4"
  · rw [if_pos hm]
    rcases h with h | h
    · exact absurd hm h
    · rw [interceptCore_nonmatching env args h]
      simp
  · rw [if_neg hm]

/-- C4: a matching `eth_signTypedData_v4` call on which the interception
fails — the payload does not parse, the on-chain nonce read rejects, the
reshaped signing call rejects, or (native branch) the value does not convert
or the transaction rejects — is caught: no artifact is stored, no exception
surfaces, and the caller's original unmodified request is forwarded to the
original entry point, whose result is returned. -/
theorem c4_fail_open (env : ProviderEnv) (st : SlotState) (q0 : JsPrim) (p1 : String)
    (rest : List RpcParam) (args : ReqArgs)
    (hargs : args = ⟨"eth_signTypedData_v4", .prim q0 :: .prim (.str p1) :: rest⟩)
    (h : env.jsonParse p1 = none
      ∨ ∃ td, env.jsonParse p1 = some td ∧
          td.primaryType = some "TransferWithAuthorization" ∧
          ((env.token.native = false ∧ ∃ o, q0 = .str o ∧
              ((∃ e, env.orig (ercNonceCall env o) = .error e)
               ∨ (∃ r e, env.orig (ercNonceCall env o) = .ok r ∧
                    env.orig (ercSignArgs env o td r) = .error e)))
           ∨ (env.token.native = true ∧
              (ercValue td = none
               ∨ (∃ v, ercValue td = some v ∧ bigIntOfPrim v = none)
               ∨ (∃ v n e, ercValue td = some v ∧ bigIntOfPrim v = some n ∧
                    env.orig (nativeTxCall q0 td n) = .error e))))) :
    ∃ pre, wrappedRequest env st args = (env.orig args, st, pre ++ [args]) := by
  subst hargs
  unfold wrappedRequest
  rw [if_pos rfl]
  unfold interceptCore
  rcases h with hnone | ⟨td, hjp, hPT, hcase⟩
  · simp only [hnone]
    exact ⟨[], rfl⟩
  · simp only [hjp, hPT, if_pos]
    rcases hcase with ⟨hnat, o, rfl, herr⟩ | ⟨hnat, hfail⟩
    · simp only [hnat, Bool.false_eq_true, if_false]
      unfold ercIntercept
      rcases herr with ⟨e, he⟩ | ⟨r, e, hr, he⟩
      · simp only [he]
        exact ⟨[ercNonceCall env o], rfl⟩
      · simp only [hr, he]
        exact ⟨[ercNonceCall env o, ercSignArgs env o td r], rfl⟩
    · simp only [hnat, if_true]
      unfold nativeIntercept
      rcases hfail with hv | ⟨v, hv, hbig⟩ | ⟨v, n, e, hv, hbig, htx⟩
      · simp only [ercValue] at hv
        simp only [hv]
        exact ⟨[], rfl⟩
      · simp only [ercValue] at hv
        simp only [hv, hbig]
        exact ⟨[], rfl⟩
      · simp only [ercValue] at hv
        simp only [hv, hbig, htx]
        exact ⟨[nativeTxCall q0 td n], rfl⟩

/-- C1: a matching `eth_signTypedData_v4` call with a non-native token issues
exactly one `eth_call` nonce read followed by exactly one reshaped signing
call whose typed data (see `newDataStr` for the fixed field orderings) has
primaryType Permit, domain name `TOKEN.name || domain.name`, version
`TOKEN.version || domain.version || '1'`, the original chainId,
verifyingContract `TOKEN.address`, and message owner/spender/value/nonce/
deadline drawn from the signer, the original destination and value, the
parsed nonce read, and now+3600 as a string; the resulting signature is
returned unchanged, and the permit artifact and transfer intent with those
same fields are stored. -/
theorem c1_erc20_conversion (env : ProviderEnv) (st : SlotState) (owner p1 : String)
    (rest : List RpcParam) (args : ReqArgs) (td : IncomingTD)
    (nonceRes : JsPrim) (k : Nat) (sig spender val nm cid : JsPrim)
    (h0 : env.token.native = false)
    (hargs : args = ⟨"eth_signTypedData_v4", .prim (.str owner) :: .prim (.str p1) :: rest⟩)
    (hjp : env.jsonParse p1 = some td)
    (hPT : td.primaryType = some "TransferWithAuthorization")
    (hsp : ercSpender td = some spender)
    (hval : ercValue td = some val)
    (hnm : jsOrPrim (some (.str env.token.name)) (td.domain.getD emptyDomain).name = some nm)
    (hcid : (td.domain.getD emptyDomain).chainId = some cid)
    (hnonce : env.orig (ercNonceCall env owner) = .ok nonceRes)
    (hk : parseIntOf16 nonceRes = some k)
    (hsig : env.orig (ercSignArgs env owner td nonceRes) = .ok sig) :
    wrappedRequest env st args =
      (.ok sig,
       { st with
           permit := some ⟨owner, some spender, some val, some k,
             natDecStr (env.nowSec + 3600), sig⟩,
           transfer := some ⟨owner, some spender, some val⟩ },
       [ercNonceCall env owner, ercSignArgs env owner td nonceRes]) ∧
    ercSignArgs env owner td nonceRes =
      ⟨"eth_signTypedData_v4",
       [.prim (.str owner),
        .prim (.str (newDataStr
          ⟨some nm,
           jsOrPrim (jsOrPrim (some (.str env.token.version))
             (td.domain.getD emptyDomain).version) (some (.str "1")),
           some cid, env.token.address⟩
          ⟨owner, some spender, some val, some k, natDecStr (env.nowSec + 3600)⟩))]⟩ := by
  subst hargs
  constructor
  · unfold wrappedRequest
    rw [if_pos rfl]
    unfold interceptCore
    simp only [hjp, hPT, if_pos, h0, Bool.false_eq_true, if_false]
    unfold ercIntercept
    simp only [hnonce, hsig, hk, hsp, hval]
  · unfold ercSignArgs ercDomain ercMsg
    rw [hnm, hcid, hk, hsp, hval]

/-- C5: a matching `eth_signTypedData_v4` call with a native token issues a
single `eth_sendTransaction` whose `from` is the signer, whose `to` is the
original message's destination, and whose `value` is the hexadecimal encoding
of the original value; on success it stores the native artifact
`{txHash, from, to, amountWei}` with `amountWei` the original decimal value
string, and returns the transaction hash in place of a signature. -/
theorem c5_native_conversion (env : ProviderEnv) (st : SlotState) (p0 : JsPrim)
    (p1 : String) (rest : List RpcParam) (args : ReqArgs) (td : IncomingTD)
    (v txh : JsPrim) (n : Int)
    (h0 : env.token.native = true)
    (hargs : args = ⟨"eth_signTypedData_v4", .prim p0 :: .prim (.str p1) :: rest⟩)
    (hjp : env.jsonParse p1 = some td)
    (hPT : td.primaryType = some "TransferWithAuthorization")
    (hv : (td.message.getD emptyMsg).value = some v)
    (hn : bigIntOfPrim v = some n)
    (htx : env.orig (nativeTxCall p0 td n) = .ok txh) :
    wrappedRequest env st args =
      (.ok txh,
       { st with nativeData := some ⟨txh, p0, (td.message.getD emptyMsg).toAddr, jsPrimToString v⟩ },
       [nativeTxCall p0 td n]) ∧
    nativeTxCall p0 td n =
      ⟨"eth_sendTransaction",
       [.txObj ⟨p0, (td.message.getD emptyMsg).toAddr, "0x" ++ intHexStr n⟩]⟩ := by
  subst hargs
  refine ⟨?_, rfl⟩
  unfold wrappedRequest
  rw [if_pos rfl]
  unfold interceptCore
  simp only [hjp, hPT, if_pos, h0, if_true]
  unfold nativeIntercept
  simp only [hv, hn, htx]

/-! ## Claim theorems: network call interceptor -/

/-- C2: with a non-native token, a stored permit artifact and transfer
intent, and an outgoing request whose header map holds a non-empty
`X-PAYMENT` placeholder, the wrapped fetch overwrites that header with
`btoa(JSON.stringify({x402Version: 1, scheme: 'exact', network: <descriptor
network or 'base-sepolia'>, payload: {permit, transfer}}))`, clears both
stored slots, forwards the request otherwise unchanged and returns the
original function's result on it; a second identical request afterwards is
forwarded with its header untouched. -/
theorem c2_header_substitution (env : FetchEnv) (st : SlotState) (u : JsPrim)
    (l : List (String × String)) (r : String) (req : FetchReq)
    (pa : PermitArtifact) (ti : TransferIntent) (v enc : String)
    (h0 : env.token.native = false)
    (hp : st.permit = some pa)
    (ht : st.transfer = some ti)
    (hreq : req = ⟨u, some ⟨some (.hmap l), r⟩⟩)
    (hv : mapGet l "X-PAYMENT" = some v)
    (hvne : v ≠ "")
    (henc : btoaOpt (permitPayloadStr (effNetwork env.network) pa (some ti)) = some enc) :
    wrappedFetch env st req =
      (env.origFetch ⟨u, some ⟨some (.hmap (mapSet l "X-PAYMENT" enc)), r⟩⟩,
       { st with permit := none, transfer := none },
       ⟨u, some ⟨some (.hmap (mapSet l "X-PAYMENT" enc)), r⟩⟩, true) ∧
    wrappedFetch env { st with permit := none, transfer := none } req =
      (env.origFetch req, { st with permit := none, transfer := none }, req, false) := by
  subst hreq
  constructor
  · unfold wrappedFetch
    simp only [xpayDetect, hv, if_neg hvne, h0, hp]
    rw [ht, henc]
    rfl
  · unfold wrappedFetch
    simp only [xpayDetect, hv, if_neg hvne, h0]

/-- C6 (amended): the wrapped fetch performs header substitution iff the
request carries a headers value on which `h['X-PAYMENT'] || h['x-payment']`
yields a non-empty string — i.e. a plain header map whose exact key
`X-PAYMENT`, or failing that exact key `x-payment`, holds a non-empty value;
a native `Headers` collection or any other key casing never matches (see
`xpayDetect`) — and a matching artifact is stored whose payload base64
encodes; every other request is forwarded unchanged with the state kept. -/
theorem c6_detection_characterization (env : FetchEnv) (st : SlotState) (req : FetchReq) :
    ((wrappedFetch env st req).2.2.2 = true ↔
      (∃ init hv v, req.init = some init ∧ init.headers = some hv ∧
        xpayDetect hv = some v ∧ v ≠ "" ∧
        ((env.token.native = true ∧ ∃ np, st.nativeData = some np ∧
            ∃ e, btoaOpt (nativePayloadStr (effNetwork env.network) np) = some e)
         ∨ (¬(env.token.native = true ∧ st.nativeData ≠ none) ∧
            ∃ pa, st.permit = some pa ∧
            ∃ e, btoaOpt (permitPayloadStr (effNetwork env.network) pa st.transfer) = some e)))) ∧
    ((wrappedFetch env st req).2.2.2 = false →
      wrappedFetch env st req = (env.origFetch req, st, req, false)) := by
  unfold wrappedFetch
  cases hinit : req.init with
  | none => simp [hinit]
  | some init =>
    cases hh : init.headers with
    | none => simp [hinit, hh]
    | some hv =>
      cases hx : xpayDetect hv with
      | none => simp [hinit, hh, hx]
      | some xv =>
        by_cases hxe : xv = ""
        · simp [hinit, hh, hx, hxe]
        · cases hnat : env.token.native with
          | false =>
            cases hpm : st.permit with
            | none =>
              simp [hinit, hh, hx, hxe, hnat, hpm]
            | some pa =>
              cases hb : btoaOpt (permitPayloadStr (effNetwork env.network) pa st.transfer) with
              | none => simp [hinit, hh, hx, hxe, hnat, hpm, hb]
              | some enc => simp [hinit, hh, hx, hxe, hnat, hpm, hb]
          | true =>
            cases hnd : st.nativeData with
            | none =>
              cases hpm : st.permit with
              | none => simp [hinit, hh, hx, hxe, hnat, hnd, hpm]
              | some pa =>
                cases hb : btoaOpt (permitPayloadStr (effNetwork env.network) pa st.transfer) with
                | none => simp [hinit, hh, hx, hxe, hnat, hnd, hpm, hb]
                | some enc => simp [hinit, hh, hx, hxe, hnat, hnd, hpm, hb]
            | some np =>
              cases hb : btoaOpt (nativePayloadStr (effNetwork env.network) np) with
              | none => simp [hinit, hh, hx, hxe, hnat, hnd, hb]
              | some enc => simp [hinit, hh, hx, hxe, hnat, hnd, hb]

/-! ## Claim theorems: global artifact-slot invariants -/

theorem ercIntercept_not_native (env : ProviderEnv) (o : String) (td : IncomingTD)
    (h : JsPrim) (a : NativeArtifact) (c : List ReqArgs) :
    ercIntercept env o td ≠ .doneNative h a c := by
  unfold ercIntercept
  split
  · simp
  · split <;> simp

theorem nativeIntercept_not_permit (env : ProviderEnv) (p0 : JsPrim) (td : IncomingTD)
    (s : JsPrim) (a : PermitArtifact) (t : TransferIntent) (c : List ReqArgs) :
    nativeIntercept env p0 td ≠ .donePermit s a t c := by
  unfold nativeIntercept
  split
  · simp
  · split
    · simp
    · split <;> simp

theorem interceptCore_native_flag (env : ProviderEnv) (args : ReqArgs)
    (h : JsPrim) (a : NativeArtifact) (c : List ReqArgs)
    (hh : interceptCore env args = .doneNative h a c) : env.token.native = true := by
  unfold interceptCore at hh
  split at hh
  · split at hh
    · simp at hh
    · split at hh
      · split at hh
        · assumption
        · split at hh
          · exact absurd hh (ercIntercept_not_native _ _ _ _ _ _)
          · simp at hh
      · simp at hh
  · simp at hh

theorem interceptCore_permit_flag (env : ProviderEnv) (args : ReqArgs)
    (s : JsPrim) (a : PermitArtifact) (t : TransferIntent) (c : List ReqArgs)
    (hh : interceptCore env args = .donePermit s a t c) : env.token.native = false := by
  unfold interceptCore at hh
  split at hh
  · split at hh
    · simp at hh
    · split at hh
      · split at hh
        · exact absurd hh (nativeIntercept_not_permit _ _ _ _ _ _ _)
        · rename_i hfalse
          simp at hfalse
          exact hfalse
      · simp at hh
  · simp at hh

/-- State update shape of a wrapped signing call: it leaves the slots alone,
stores a native artifact (only when the token is native), or stores a permit
artifact and transfer intent (only when it is not). -/
theorem wrappedRequest_state_shape (env : ProviderEnv) (st : SlotState) (args : ReqArgs) :
    (wrappedRequest env st args).2.1 = st ∨
    (env.token.native = true ∧
      ∃ a, (wrappedRequest env st args).2.1 = { st with nativeData := some a }) ∨
    (env.token.native = false ∧
      ∃ a t, (wrappedRequest env st args).2.1 = { st with permit := some a, transfer := some t }) := by
  unfold wrappedRequest
  by_cases hm : args.method = "eth_signTypedData_v4"
  · rw [if_pos hm]
    cases hc : interceptCore env args with
    | fallthrough calls => left; rfl
    | doneNative h a c =>
      right; left
      exact ⟨interceptCore_native_flag env args h a c hc, a, rfl⟩
    | donePermit s a t c =>
      right; right
      exact ⟨interceptCore_permit_flag env args s a t c hc, a, t, rfl⟩
  · rw [if_neg hm]
    left
    rfl

/-- State update shape of a wrapped fetch call: it leaves the slots alone or
clears one of them. -/
theorem wrappedFetch_state_shape (env : FetchEnv) (st : SlotState) (req : FetchReq) :
    (wrappedFetch env st req).2.1 = st ∨
    (wrappedFetch env st req).2.1 = { st with nativeData := none } ∨
    (wrappedFetch env st req).2.1 = { st with permit := none, transfer := none } := by
  unfold wrappedFetch
  repeat'
    first
      | exact Or.inl rfl
      | exact Or.inr (Or.inl rfl)
      | exact Or.inr (Or.inr rfl)
      | split
      | dsimp only

theorem stepState_inv (cfg : TokenCfg) (st : SlotState) (s : SysStep)
    (h : slotInv cfg st) : slotInv cfg (stepState cfg st s) := by
  cases s with
  | sign env args =>
    simp only [stepState]
    rcases wrappedRequest_state_shape { env with token := cfg } st args with
      h1 | ⟨hn, a, h1⟩ | ⟨hn, a, t, h1⟩
    · rw [h1]; exact h
    · rw [h1]
      refine ⟨fun hcn => h.1 hcn, fun hcn => ?_⟩
      exact absurd hn (by simp [hcn])
    · rw [h1]
      refine ⟨fun hcn => absurd hn (by simp [hcn]), fun hcn => h.2 hcn⟩
  | net env req =>
    simp only [stepState]
    rcases wrappedFetch_state_shape { env with token := cfg } st req with h1 | h1 | h1
    · rw [h1]; exact h
    · rw [h1]
      exact ⟨fun hcn => h.1 hcn, fun _ => rfl⟩
    · rw [h1]
      exact ⟨fun _ => ⟨rfl, rfl⟩, fun hcn => h.2 hcn⟩

theorem foldl_inv (cfg : TokenCfg) (steps : List SysStep) :
    ∀ st, slotInv cfg st → slotInv cfg (steps.foldl (stepState cfg) st) := by
  induction steps with
  | nil => exact fun st h => h
  | cons s rest ih =>
    intro st h
    exact ih _ (stepState_inv cfg st s h)

theorem runSteps_inv (cfg : TokenCfg) (steps : List SysStep) :
    slotInv cfg (runSteps cfg steps) :=
  foldl_inv cfg steps initSlots ⟨fun _ => ⟨rfl, rfl⟩, fun _ => rfl⟩

/-- C9: in every state reachable by any sequence of wrapped signing and fetch
calls, at most one of the permit slot and the native slot is populated; and a
signing call either leaves the permit slot untouched or overwrites it with an
artifact that does not depend on the prior state — so after a second
successful signing call only the second artifact is retrievable and the first
is unrecoverable. -/
theorem c9_single_slot (cfg : TokenCfg) (steps : List SysStep) :
    ((runSteps cfg steps).permit = none ∨ (runSteps cfg steps).nativeData = none) ∧
    (∀ (env : ProviderEnv) (st st' : SlotState) (args : ReqArgs),
      ((wrappedRequest env st args).2.1.permit = st.permit ∧
       (wrappedRequest env st' args).2.1.permit = st'.permit) ∨
      ((wrappedRequest env st args).2.1.permit = (wrappedRequest env st' args).2.1.permit ∧
       (wrappedRequest env st args).2.1.permit ≠ none)) := by
  constructor
  · have h := runSteps_inv cfg steps
    cases hn : cfg.native with
    | true => exact Or.inl (h.1 hn).1
    | false => exact Or.inr (h.2 hn)
  · intro env st st' args
    unfold wrappedRequest
    by_cases hm : args.method = "eth_signTypedData_v4"
    · rw [if_pos hm, if_pos hm]
      cases interceptCore env args with
      | fallthrough calls => left; exact ⟨rfl, rfl⟩
      | doneNative h a c => left; exact ⟨rfl, rfl⟩
      | donePermit s a t c => right; exact ⟨rfl, by simp⟩
    · rw [if_neg hm, if_neg hm]
      left
      exact ⟨rfl, rfl⟩

/-! ## Claim theorems: the two source variants -/

/-- The two transcriptions of the ERC-20 interception body coincide
definitionally (the source lines are identical). -/
theorem ercIntercept_eq_PA (env : ProviderEnv) (o : String) (td : IncomingTD) :
    ercIntercept env o td = ercInterceptPA env o td := rfl

theorem interceptCore_eq_PA (env : ProviderEnv) (args : ReqArgs)
    (h : env.token.native = false) :
    interceptCore env args = interceptCorePA env args := by
  obtain ⟨m, params⟩ := args
  unfold interceptCore interceptCorePA
  cases params with
  | nil => rfl
  | cons a tl =>
    cases tl with
    | nil => cases a <;> rfl
    | cons b tl2 =>
      cases a with
      | prim p0 =>
        cases b with
        | prim pb =>
          cases pb with
          | str p1 =>
            dsimp only
            cases env.jsonParse p1 with
            | none => rfl
            | some td =>
              dsimp only
              by_cases hPT : td.primaryType = some "TransferWithAuthorization"
              · rw [if_pos hPT, if_pos hPT, h]
                simp only [Bool.false_eq_true, if_false]
                cases p0 <;> rfl
              · rw [if_neg hPT, if_neg hPT]
          | num n => cases p0 <;> rfl
          | bool bb => cases p0 <;> rfl
          | null => cases p0 <;> rfl
        | txObj t => cases p0 <;> rfl
        | callObj c => cases p0 <;> rfl
      | txObj t => rfl
      | callObj c => rfl

theorem wrappedRequest_eq_PA (env : ProviderEnv) (st : SlotState) (args : ReqArgs)
    (h : env.token.native = false) :
    wrappedRequest env st args = wrappedRequestPA env st args := by
  unfold wrappedRequest wrappedRequestPA
  rw [interceptCore_eq_PA env args h]

theorem mergeToken_native (t : TokenCfg) (extra : Option ExtraCfg) :
    (mergeToken t extra).native = t.native := by
  cases extra <;> rfl

/-- C10 (amended): for a non-native token, the provider interceptors of the
two variants behave identically — same issued calls, same returned result,
same stored artifacts — whenever the two variants' token merges agree (in
particular whenever the payment-requirements descriptor exposes no extra
object); the merges themselves differ in precedence: part_000 prefers the
configured name/version (with symbol/'1' fallbacks), paywall_adapter.js
prefers the descriptor's `extra.name`/`extra.version`. -/
theorem c10_variant_equivalence (t : TokenCfg) (extra : Option ExtraCfg)
    (env : ProviderEnv) (st : SlotState) (args : ReqArgs)
    (hn : t.native = false)
    (hm : mergeToken t extra = mergeTokenPA t extra) :
    wrappedRequest { env with token := mergeToken t extra } st args =
      wrappedRequestPA { env with token := mergeTokenPA t extra } st args := by
  rw [← hm]
  exact wrappedRequest_eq_PA _ st args (by rw [mergeToken_native]; exact hn)

/-! ## Witness and counterexample theorems -/

theorem c1_erc20_conversion_witness :
    (w1env.token.native = false ∧
     w1env.jsonParse "p" = some w1td ∧
     w1td.primaryType = some "TransferWithAuthorization" ∧
     ercSpender w1td = some (.str "0xSpender") ∧
     ercValue w1td = some (.str "1000000") ∧
     jsOrPrim (some (.str w1env.token.name)) (w1td.domain.getD emptyDomain).name =
       some (.str "USDC") ∧
     (w1td.domain.getD emptyDomain).chainId = some (.num 84532) ∧
     w1env.orig (ercNonceCall w1env "0xOwner") = .ok (.str "0x5") ∧
     parseIntOf16 (.str "0x5") = some 5 ∧
     w1env.orig (ercSignArgs w1env "0xOwner" w1td (.str "0x5")) = .ok (.str "0xsig")) ∧
    (wrappedRequest w1env initSlots w1args =
      (.ok (.str "0xsig"),
       { initSlots with
           permit := some ⟨"0xOwner", some (.str "0xSpender"), some (.str "1000000"), some 5,
             natDecStr (w1env.nowSec + 3600), .str "0xsig"⟩,
           transfer := some ⟨"0xOwner", some (.str "0xSpender"), some (.str "1000000")⟩ },
       [ercNonceCall w1env "0xOwner", ercSignArgs w1env "0xOwner" w1td (.str "0x5")]) ∧
     ercSignArgs w1env "0xOwner" w1td (.str "0x5") =
      ⟨"eth_signTypedData_v4",
       [.prim (.str "0xOwner"),
        .prim (.str (newDataStr
          ⟨some (.str "USDC"),
           jsOrPrim (jsOrPrim (some (.str w1env.token.version))
             (w1td.domain.getD emptyDomain).version) (some (.str "1")),
           some (.num 84532), w1env.token.address⟩
          ⟨"0xOwner", some (.str "0xSpender"), some (.str "1000000"), some 5,
           natDecStr (w1env.nowSec + 3600)⟩))]⟩) :=
  ⟨⟨rfl, rfl, rfl, by decide, by decide, by decide, by decide, by decide, by decide, by decide⟩,
   c1_erc20_conversion w1env initSlots "0xOwner" "p" [] w1args w1td (.str "0x5") 5
     (.str "0xsig") (.str "0xSpender") (.str "1000000") (.str "USDC") (.num 84532)
     rfl rfl rfl rfl (by decide) (by decide) (by decide) (by decide) (by decide) (by decide)
     (by decide)⟩

theorem c2_header_substitution_witness :
    (w2env.token.native = false ∧
     w2st.permit = some w2pa ∧
     w2st.transfer = some w2ti ∧
     mapGet w2l "X-PAYMENT" = some "placeholder" ∧
     ("placeholder" : String) ≠ "" ∧
     btoaOpt (permitPayloadStr (effNetwork w2env.network) w2pa (some w2ti)) = some w2enc) ∧
    (wrappedFetch w2env w2st w2req =
      (w2env.origFetch ⟨.str "/api", some ⟨some (.hmap (mapSet w2l "X-PAYMENT" w2enc)), "rest"⟩⟩,
       { w2st with permit := none, transfer := none },
       ⟨.str "/api", some ⟨some (.hmap (mapSet w2l "X-PAYMENT" w2enc)), "rest"⟩⟩, true) ∧
     wrappedFetch w2env { w2st with permit := none, transfer := none } w2req =
      (w2env.origFetch w2req, { w2st with permit := none, transfer := none }, w2req, false)) :=
  ⟨⟨rfl, rfl, rfl, by decide, by decide, by decide⟩,
   c2_header_substitution w2env w2st (.str "/api") w2l "rest" w2req w2pa w2ti "placeholder"
     w2enc rfl rfl rfl rfl (by decide) (by decide) (by decide)⟩

theorem c3_passthrough_witness :
    (w3args.method ≠ "eth_signTypedData_v4" ∨
      ∀ td, payloadParsed w3env w3args = some td →
        td.primaryType ≠ some "TransferWithAuthorization") ∧
    wrappedRequest w3env initSlots w3args = (w3env.orig w3args, initSlots, [w3args]) :=
  ⟨Or.inl (by decide), c3_passthrough w3env initSlots w3args (Or.inl (by decide))⟩

theorem c4_fail_open_witness :
    (w4args = ⟨"eth_signTypedData_v4", .prim (.str "0xOwner") :: .prim (.str "bad") :: []⟩) ∧
    (w3env.jsonParse "bad" = none) ∧
    (∃ pre, wrappedRequest w3env initSlots w4args =
      (w3env.orig w4args, initSlots, pre ++ [w4args])) :=
  ⟨rfl, rfl,
   c4_fail_open w3env initSlots (.str "0xOwner") "bad" [] w4args rfl (Or.inl rfl)⟩

theorem c5_native_conversion_witness :
    (w5env.token.native = true ∧
     w5env.jsonParse "p" = some w5td ∧
     w5td.primaryType = some "TransferWithAuthorization" ∧
     (w5td.message.getD emptyMsg).value = some (.str "2000000000000000000") ∧
     bigIntOfPrim (.str "2000000000000000000") = some 2000000000000000000 ∧
     w5env.orig (nativeTxCall (.str "0xOwner") w5td 2000000000000000000) = .ok (.str "0xHash")) ∧
    (wrappedRequest w5env initSlots w5args =
      (.ok (.str "0xHash"),
       { initSlots with nativeData := some ⟨.str "0xHash", .str "0xOwner",
           (w5td.message.getD emptyMsg).toAddr, jsPrimToString (.str "2000000000000000000")⟩ },
       [nativeTxCall (.str "0xOwner") w5td 2000000000000000000]) ∧
     nativeTxCall (.str "0xOwner") w5td 2000000000000000000 =
      ⟨"eth_sendTransaction",
       [.txObj ⟨.str "0xOwner", (w5td.message.getD emptyMsg).toAddr,
         "0x" ++ intHexStr 2000000000000000000⟩]⟩) ∧
    nativeTxCall (.str "0xOwner") w5td 2000000000000000000 =
      ⟨"eth_sendTransaction",
       [.txObj ⟨.str "0xOwner", some (.str "0xRecipient"), "0x1bc16d674ec80000"⟩]⟩ :=
  ⟨⟨rfl, rfl, rfl, rfl, by decide, by decide⟩,
   c5_native_conversion w5env initSlots (.str "0xOwner") "p" [] w5args w5td
     (.str "2000000000000000000") (.str "0xHash") 2000000000000000000
     rfl rfl rfl rfl rfl (by decide) (by decide),
   by decide⟩

/-- C6 counterexample: with a non-native token, a stored permit artifact, and
a header map whose only key is `X-Payment` (which matches `x-payment`
case-insensitively) holding the non-empty value `placeholder`, the wrapped
fetch performs no substitution: it forwards the request untouched and keeps
the artifact — refuting the claimed case-insensitive detection. -/
theorem c6_counterexample :
    lowerStr "X-Payment" = "x-payment" ∧
    ("placeholder" : String) ≠ "" ∧
    w2st.permit ≠ none ∧
    w2env.token.native = false ∧
    wrappedFetch w2env w2st c6req = (w2env.origFetch c6req, w2st, c6req, false) := by
  refine ⟨by decide, by decide, by decide, by decide, ?_⟩
  decide

theorem c6_detection_characterization_witness :
    ((wrappedFetch w2env w2st c6req).2.2.2 = true ↔
      (∃ init hv v, c6req.init = some init ∧ init.headers = some hv ∧
        xpayDetect hv = some v ∧ v ≠ "" ∧
        ((w2env.token.native = true ∧ ∃ np, w2st.nativeData = some np ∧
            ∃ e, btoaOpt (nativePayloadStr (effNetwork w2env.network) np) = some e)
         ∨ (¬(w2env.token.native = true ∧ w2st.nativeData ≠ none) ∧
            ∃ pa, w2st.permit = some pa ∧
            ∃ e, btoaOpt (permitPayloadStr (effNetwork w2env.network) pa w2st.transfer) =
              some e)))) ∧
    ((wrappedFetch w2env w2st c6req).2.2.2 = false →
      wrappedFetch w2env w2st c6req = (w2env.origFetch c6req, w2st, c6req, false)) :=
  c6_detection_characterization w2env w2st c6req

/-- C10 counterexample: same non-native configuration, same descriptor
`extra`, same parsed payload, same provider responses — yet the two variants
issue different reshaped signing requests, because part_000's merge keeps the
configured name/version (Foo/ver1) while paywall_adapter.js's merge takes the
descriptor's (Bar/2). -/
theorem c10_counterexample :
    c10t.native = false ∧
    c10env1.jsonParse = c10env2.jsonParse ∧
    c10env1.orig = c10env2.orig ∧
    c10env1.nowSec = c10env2.nowSec ∧
    (wrappedRequest c10env1 initSlots c10args).2.2 ≠
      (wrappedRequestPA c10env2 initSlots c10args).2.2 := by
  refine ⟨by decide, rfl, rfl, rfl, ?_⟩
  decide

theorem c10_variant_equivalence_witness :
    (c10t.native = false ∧ mergeToken c10t none = mergeTokenPA c10t none) ∧
    wrappedRequest { c10env1 with token := mergeToken c10t none } initSlots c10args =
      wrappedRequestPA { c10env1 with token := mergeTokenPA c10t none } initSlots c10args :=
  ⟨⟨rfl, rfl⟩, c10_variant_equivalence c10t none c10env1 initSlots c10args rfl rfl⟩

end X402
